import Mathlib

/-!
# Verification of the WhisperLive client's segment pipeline

A shallow embedding of the core of `src/utils/run_client.py`:
the deduplicating statistics recorder (`TranscriptionLogger.log_segment`,
`log_vad_event`, `log_trigger_event`), the trigger-word state machine
(`trigger_word_callback`), and the callback entry point
(`combined_callback`).

Python strings are modelled as `List Char`, wall-clock times as rationals
(seconds), and dictionary fields that may be absent as `Option`.  File
writes are modelled by their observable outcome: a boolean `writeOk`
parameter says whether the write into the trigger output file succeeded
(an exception inside the `try` block corresponds to `writeOk = false`),
and output structures record which events were emitted.
-/

/-- Python strings, modelled as lists of characters. -/
abbrev Str := List Char

/-- Wall-clock time in seconds, modelled as a rational number. -/
abbrev Time := ℚ

/-- Whitespace characters recognised by Python's `str.strip` / `str.split`
(the ASCII ones; the transcript source emits ASCII-spaced text). -/
def pyIsSpace (c : Char) : Bool :=
  c == ' ' || c == '\t' || c == '\n' || c == '\r' || c == '\x0b' || c == '\x0c'

/-- Python `s.strip()`: remove leading and trailing whitespace. -/
def pyStrip (s : Str) : Str :=
  ((s.dropWhile pyIsSpace).reverse.dropWhile pyIsSpace).reverse

/-- Python `s.lstrip(chars)`: remove leading characters from `chars`. -/
def pyLstrip (chars : Str) (s : Str) : Str :=
  s.dropWhile (fun c => c ∈ chars)

/-- Python `s.lower()`: lowercase each character. -/
def pyLower (s : Str) : Str := s.map Char.toLower

/-- Python `s.split()`: split on whitespace runs, dropping empty pieces. -/
def pySplit (s : Str) : List Str :=
  (s.splitOnP pyIsSpace).filter (fun w => w ≠ [])

/-- Python `needle in hay` on strings: contiguous substring test. -/
def isSubstr (needle : Str) (hay : Str) : Bool :=
  (List.range (hay.length + 1)).any (fun i => needle.isPrefixOf (hay.drop i))

/-- Helper for `pyRfind`: the largest position `p ≤ k` at which `needle`
is a prefix of `hay.drop p`, searching downward from `k`. -/
def rfindFrom (needle hay : Str) : Nat → Option Nat
  | 0 => if needle.isPrefixOf hay then some 0 else none
  | k + 1 =>
    if needle.isPrefixOf (hay.drop (k + 1)) then some (k + 1)
    else rfindFrom needle hay k

/-- Python `hay.rfind(needle)`: position of the last occurrence of
`needle` in `hay` (`none` models Python's `-1`). -/
def pyRfind (needle hay : Str) : Option Nat :=
  rfindFrom needle hay hay.length

/-- A Python value appearing in a segment's `start`/`end` field: either a
number, or a non-numeric value (on which `float()` raises). -/
inductive PyVal where
  | num (q : ℚ)
  | nonnum (s : Str)
deriving DecidableEq, Repr

/-- Python `float(v)` on a `PyVal`, `none` when it raises
(`ValueError`/`TypeError`, caught by the source). -/
def floatOfVal : PyVal → Option ℚ
  | .num q => some q
  | .nonnum _ => none

/-- One transcript segment dictionary as delivered by the source; absent
dictionary keys are `none`. -/
structure Segment where
  text : Option Str
  start : Option PyVal
  end_ : Option PyVal
  completed : Option Bool
deriving DecidableEq, Repr

/-- The statistics dictionary of `TranscriptionLogger` (`self.stats`). -/
structure Stats where
  total_segments : Nat
  completed_segments : Nat
  incomplete_segments : Nat
  total_duration : ℚ
  total_words : Nat
  trigger_words_detected : Nat
  trigger_statements_saved : Nat
  vad_triggers : Nat
  vad_silence_filters : Nat
  vad_total_events : Nat
  segment_sizes : List ℚ
  segment_durations : List ℚ
  processing_times : List ℚ
  silence_periods : List ℚ
deriving DecidableEq, Repr

/-- The all-zero statistics built by `TranscriptionLogger.__init__`. -/
def initStats : Stats :=
  { total_segments := 0, completed_segments := 0, incomplete_segments := 0
    total_duration := 0, total_words := 0, trigger_words_detected := 0
    trigger_statements_saved := 0, vad_triggers := 0, vad_silence_filters := 0
    vad_total_events := 0, segment_sizes := [], segment_durations := []
    processing_times := [], silence_periods := [] }

/-- Deduplication key of a segment: `(text.strip(), start, end)` with
defaults `""`, `0`, `0` for missing fields (`log_segment`, lines 100-104). -/
def segKey (seg : Segment) : Str × PyVal × PyVal :=
  (pyStrip (seg.text.getD []), seg.start.getD (.num 0), seg.end_.getD (.num 0))

/-- In-memory state of a `TranscriptionLogger`. The JSON entry list is
abstracted to its length (`json_segments`); file contents are not
modelled. -/
structure LoggerState where
  enable_json : Bool
  enable_text : Bool
  verbose : Bool
  logged_segments : List (Str × PyVal × PyVal)
  json_segments : Nat
  stats : Stats
  last_segment_time : Time
deriving DecidableEq, Repr

/-- A freshly constructed `TranscriptionLogger`. -/
def initLogger (enable_json enable_text verbose : Bool) (now : Time) : LoggerState :=
  { enable_json, enable_text, verbose, logged_segments := [], json_segments := 0
    stats := initStats, last_segment_time := now }

/-- `TranscriptionLogger.log_segment` (lines 97-198), restricted to its
in-memory effect: dedup-key check, set insertion, statistics update, and
one JSON entry appended when JSON logging is enabled. -/
def log_segment (st : LoggerState) (now : Time) (seg : Segment) : LoggerState :=
  if segKey seg ∈ st.logged_segments then st
  else
    let st1 := { st with logged_segments := segKey seg :: st.logged_segments
                         last_segment_time := now }
    let s1 := { st1.stats with total_segments := st1.stats.total_segments + 1 }
    let s2 := if seg.completed.getD false
      then { s1 with completed_segments := s1.completed_segments + 1 }
      else { s1 with incomplete_segments := s1.incomplete_segments + 1 }
    let s3 := match seg.text with
      | some t => { s2 with total_words := s2.total_words + (pySplit t).length }
      | none => s2
    let s4 := match seg.start, seg.end_ with
      | some sv, some ev =>
        match floatOfVal sv, floatOfVal ev with
        | some s, some e =>
          { s3 with segment_durations := s3.segment_durations ++ [e - s]
                    total_duration := max s3.total_duration e }
        | _, _ => s3
      | _, _ => s3
    { st1 with stats := s4
               json_segments := if st1.enable_json then st1.json_segments + 1
                                else st1.json_segments }

/-- `TranscriptionLogger.log_vad_event` (lines 200-230): count the event,
count it as a silence filter when its type is `"vad_filter"`, and append
one JSON entry when JSON logging is enabled.  `event_type` is `none` when
the VAD event dictionary had no `"type"` key. -/
def log_vad_event (st : LoggerState) (event_type : Option Str) : LoggerState :=
  let s1 := { st.stats with vad_total_events := st.stats.vad_total_events + 1 }
  let s2 := if event_type = some ("vad_filter".toList)
    then { s1 with vad_silence_filters := s1.vad_silence_filters + 1 }
    else s1
  { st with stats := s2
            json_segments := if st.enable_json then st.json_segments + 1
                             else st.json_segments }

/-- `TranscriptionLogger.log_trigger_event` (lines 232-249): count trigger
detections and saved statements. -/
def log_trigger_event (st : LoggerState) (event_type : Str) : LoggerState :=
  if event_type = "trigger_detected".toList then
    { st with stats :=
        { st.stats with trigger_words_detected := st.stats.trigger_words_detected + 1 } }
  else if event_type = "statement_saved".toList then
    { st with stats :=
        { st.stats with trigger_statements_saved := st.stats.trigger_statements_saved + 1 } }
  else st

/-- The trigger detection state dictionary (`trigger_state`, lines 466-481).
Times are `Option Time` (`None` ↦ `none`); the two index fields are `Int`
because the source initialises them to `-1`. -/
structure TriggerState where
  waiting : Bool
  trigger_word : Option Str
  trigger_position : Int
  trigger_segment_index : Int
  start_time : Option Time
  last_change_time : Option Time
  stability_delay : ℚ
  last_saved_text : Str
  cooldown_until : Option Time
  last_processed_segment_count : Nat
  waiting_segment_count : Nat
  collection_timeout : ℚ
  max_collection_time : Option Time
deriving DecidableEq, Repr

/-- The initial trigger state built at startup (lines 467-481). -/
def initTriggerState (text_stability_delay : ℚ) : TriggerState :=
  { waiting := false, trigger_word := none, trigger_position := -1
    trigger_segment_index := -1, start_time := none, last_change_time := none
    stability_delay := text_stability_delay, last_saved_text := []
    cooldown_until := none, last_processed_segment_count := 0
    waiting_segment_count := 0, collection_timeout := 5
    max_collection_time := none }

/-- Observable effects of one `trigger_word_callback` invocation:
whether the collection window was finalized, which trigger-event log calls
were made, the statement appended to the trigger output file (if any). -/
structure TrigOut where
  finalized : Bool := false
  triggerDetected : Option Str := none
  statementSaved : Option Str := none
  wroteFile : Bool := false
deriving DecidableEq, Repr

/-- Python truthiness test of the cooldown guard (line 492):
`trigger_state['cooldown_until'] and current_time < trigger_state['cooldown_until']`. -/
def cooldownActive (st : TriggerState) (now : Time) : Bool :=
  match st.cooldown_until with
  | some t => decide (now < t)
  | none => false

/-- Statement extraction at finalization (lines 520-535): join the
stripped text of all segments with single spaces, find the last
case-insensitive occurrence of the trigger word, take what follows it
(stripped, then with leading `' ,.!?'` removed); if the trigger word no
longer occurs, fall back to the segments strictly after the captured
trigger segment index. -/
def extractStatement (segments : List Segment) (tw : Str) (tidx : Int) : Str :=
  let all_text := List.intercalate [' ']
    (segments.map (fun s => pyStrip (s.text.getD [])))
  let twl := pyLower tw
  match pyRfind twl (pyLower all_text) with
  | some pos => pyLstrip (' ' :: ",.!?".toList) (pyStrip (all_text.drop (pos + twl.length)))
  | none => List.intercalate [' ']
      ((segments.drop (tidx.toNat + 1)).map (fun s => pyStrip (s.text.getD [])))

/-- The statement-saving part of the `should_finalize` branch (lines
518-581): when the trigger segment index is valid, extract the candidate
and save it when it is non-empty, not bare punctuation, and differs from
the previously saved text; the write succeeds iff `writeOk`, and only a
successful write updates `last_saved_text` and opens the 2-second
cooldown. -/
def saveStatement (writeOk : Bool) (segments : List Segment) (now : Time)
    (st : TriggerState) : TriggerState × TrigOut :=
  if st.trigger_segment_index ≥ 0 then
    let post := extractStatement segments (st.trigger_word.getD []) st.trigger_segment_index
    let p := pyStrip post
    if p ≠ [] ∧ ¬ (p = ['.'] ∨ p = [','] ∨ p = []) ∧ p ≠ st.last_saved_text then
      if writeOk then
        ({ st with last_saved_text := p, cooldown_until := some (now + 2) },
         { finalized := true, statementSaved := some p, wroteFile := true })
      else (st, { finalized := true })
    else (st, { finalized := true })
  else (st, { finalized := true })

/-- The whole `should_finalize` branch (lines 518-591): the saving part
above, then the unconditional reset to idle (lines 584-591) that clears
the trigger fields and advances the processed-count watermark. -/
def finalizeCollection (writeOk : Bool) (segments : List Segment) (now : Time)
    (st : TriggerState) : TriggerState × TrigOut :=
  let r := saveStatement writeOk segments now st
  ({ r.1 with waiting := false, trigger_word := none, trigger_segment_index := -1
              trigger_position := -1, start_time := none, last_change_time := none
              max_collection_time := none
              last_processed_segment_count := segments.length },
   r.2)

/-- The waiting branch of `trigger_word_callback` (lines 496-591):
establish the collection deadline on first entry, refresh the last-change
time when new segments arrived, and finalize when the collection timeout
is reached or the text has been stable long enough after a minimum
collection time of two seconds. -/
def waitingStep (writeOk : Bool) (segments : List Segment) (now : Time)
    (st : TriggerState) : TriggerState × TrigOut :=
  let mct := st.max_collection_time.getD (now + st.collection_timeout)
  let st1 := { st with max_collection_time := some mct }
  let segments_changed := decide (segments.length > st1.waiting_segment_count)
  let collection_timeout_reached := decide (now ≥ mct)
  let st2 := if segments_changed
    then { st1 with last_change_time := some now
                    waiting_segment_count := segments.length }
    else st1
  let time_since_change := match st2.last_change_time with
    | some t => now - t
    | none => 0
  let stability_reached := decide (time_since_change ≥ st2.stability_delay)
  let time_since_trigger := match st2.start_time with
    | some t => now - t
    | none => 0
  let should_finalize :=
    collection_timeout_reached || (stability_reached && decide (time_since_trigger ≥ 2))
  if should_finalize then finalizeCollection writeOk segments now st2
  else (st2, {})

/-- The per-segment trigger-word test inside the idle-branch scan (lines
599-606): skip segments whose stripped text is empty, otherwise return
the first configured trigger word contained (case-insensitively) in the
segment text. -/
def segMatch (trigger_words : List Str) (seg : Segment) : Option Str :=
  let segment_text := pyStrip (seg.text.getD [])
  if segment_text = [] then none
  else trigger_words.find? (fun tw => isSubstr (pyLower tw) (pyLower segment_text))

/-- The idle-branch scan loop (lines 595-620): walk the segments beyond
the watermark in order, returning the first match together with its
absolute index. -/
def scanSegments (trigger_words : List Str) : Nat → List Segment → Option (Str × Nat)
  | _, [] => none
  | base, seg :: rest =>
    match segMatch trigger_words seg with
    | some tw => some (tw, base)
    | none => scanSegments trigger_words (base + 1) rest

/-- The idle branch of `trigger_word_callback` (lines 593-620): scan only
the new segments; on the first match open a collection window and stop. -/
def idleStep (trigger_words : List Str) (segments : List Segment) (now : Time)
    (st : TriggerState) : TriggerState × TrigOut :=
  match scanSegments trigger_words st.last_processed_segment_count
      (segments.drop st.last_processed_segment_count) with
  | none => (st, {})
  | some (tw, idx) =>
    ({ st with waiting := true, trigger_word := some tw
               trigger_segment_index := (idx : Int), start_time := some now
               last_change_time := some now
               waiting_segment_count := segments.length },
     { triggerDetected := some tw })

/-- `trigger_word_callback` (lines 483-620).  The unused `text` argument
of the source is omitted; `now` is `datetime.datetime.now()`; `writeOk`
tells whether the trigger-file write would succeed. -/
def trigger_word_callback (trigger_words : List Str) (writeOk : Bool)
    (segments : List Segment) (now : Time) (st : TriggerState) :
    TriggerState × TrigOut :=
  if trigger_words = [] ∨ segments = [] then (st, {})
  else if cooldownActive st now then (st, {})
  else if st.waiting then waitingStep writeOk segments now st
  else idleStep trigger_words segments now st

/-- A VAD sub-event dictionary; `type` is its `"type"` entry (absent ↦
`none`). -/
structure VadEvent where
  type : Option Str
deriving DecidableEq, Repr

/-- One callback delivery: the full current segment list and the optional
VAD sub-event (the `text` argument is unused by the dispatch). -/
structure CallbackIn where
  segments : List Segment
  vad : Option VadEvent
deriving DecidableEq, Repr

/-- Combined in-memory state owned by the process: the logger (absent when
`--disable_logging` was given) and the trigger state machine. -/
structure SysState where
  logger : Option LoggerState
  trigger : TriggerState
deriving DecidableEq, Repr

/-- The body of `combined_callback`'s `try` block (lines 656-672): route a
VAD sub-event to `log_vad_event` and return; otherwise record completed
segments, then run the trigger callback, applying the trigger-event log
calls it makes. -/
def dispatch (trigger_words : List Str) (writeOk : Bool) (now : Time)
    (inp : CallbackIn) (st : SysState) : SysState :=
  match inp.vad, st.logger with
  | some v, some lg => { st with logger := some (log_vad_event lg v.type) }
  | _, _ =>
    let st1 := match st.logger with
      | some lg =>
        { st with logger := some (inp.segments.foldl
            (fun l seg => if seg.completed.getD false then log_segment l now seg else l)
            lg) }
      | none => st
    if trigger_words = [] then st1
    else
      let (ts, out) := trigger_word_callback trigger_words writeOk inp.segments now st1.trigger
      let lg2 := st1.logger.map (fun l =>
        let l1 := match out.triggerDetected with
          | some _ => log_trigger_event l ("trigger_detected".toList)
          | none => l
        match out.statementSaved with
        | some _ => log_trigger_event l1 ("statement_saved".toList)
        | none => l1)
      { logger := lg2, trigger := ts }

/-- Observable boundary effects of one `combined_callback` invocation. -/
structure CbOut where
  errorLoggedToText : Bool := false
  criticalPrinted : Bool := false
  propagated : Option Str := none
deriving DecidableEq, Repr

/-- `combined_callback` (lines 654-685).  A `fault` of `some (e, partial)`
models an exception with message `e` raised somewhere inside the dispatch,
with `partial` the in-memory state already reached at the raise point; the
handler appends the error to the text log when the logger exists with text
logging enabled, and prints it to the user exactly when the lowercased
message contains `"critical"`.  No exception ever escapes (`propagated`
is always `none`). -/
def combined_callback (trigger_words : List Str) (writeOk : Bool) (now : Time)
    (inp : CallbackIn) (st : SysState) (fault : Option (Str × SysState)) :
    SysState × CbOut :=
  match fault with
  | none => (dispatch trigger_words writeOk now inp st, {})
  | some (e, partialSt) =>
    (partialSt,
     { errorLoggedToText := match st.logger with
         | some lg => lg.enable_text
         | none => false
       criticalPrinted := isSubstr ("critical".toList) (pyLower e)
       propagated := none })

theorem log_segment_of_mem {st : LoggerState} {seg : Segment} (now : Time)
    (h : segKey seg ∈ st.logged_segments) : log_segment st now seg = st := by
  unfold log_segment
  rw [if_pos h]

theorem log_segment_logged {st : LoggerState} {seg : Segment} (now : Time)
    (h : segKey seg ∉ st.logged_segments) :
    (log_segment st now seg).logged_segments = segKey seg :: st.logged_segments := by
  unfold log_segment
  rw [if_neg h]

theorem log_segment_total {st : LoggerState} {seg : Segment} (now : Time)
    (h : segKey seg ∉ st.logged_segments) :
    (log_segment st now seg).stats.total_segments = st.stats.total_segments + 1 := by
  rcases seg with ⟨t, sv, ev, c⟩
  unfold log_segment
  rw [if_neg h]
  rcases t with _ | t <;> rcases sv with _ | (q | s) <;> rcases ev with _ | (q' | s') <;>
    rcases c with _ | b <;> first | rfl | (cases b <;> rfl)

theorem log_segment_completed {st : LoggerState} {seg : Segment} (now : Time)
    (h : segKey seg ∉ st.logged_segments) :
    (log_segment st now seg).stats.completed_segments =
      st.stats.completed_segments + (if seg.completed.getD false then 1 else 0) := by
  rcases seg with ⟨t, sv, ev, c⟩
  unfold log_segment
  rw [if_neg h]
  rcases t with _ | t <;> rcases sv with _ | (q | s) <;> rcases ev with _ | (q' | s') <;>
    rcases c with _ | b <;> first | rfl | (cases b <;> rfl)

theorem log_segment_incomplete {st : LoggerState} {seg : Segment} (now : Time)
    (h : segKey seg ∉ st.logged_segments) :
    (log_segment st now seg).stats.incomplete_segments =
      st.stats.incomplete_segments + (if seg.completed.getD false then 0 else 1) := by
  rcases seg with ⟨t, sv, ev, c⟩
  unfold log_segment
  rw [if_neg h]
  rcases t with _ | t <;> rcases sv with _ | (q | s) <;> rcases ev with _ | (q' | s') <;>
    rcases c with _ | b <;> first | rfl | (cases b <;> rfl)

theorem log_segment_words {st : LoggerState} {seg : Segment} (now : Time)
    (h : segKey seg ∉ st.logged_segments) :
    ∃ w, (log_segment st now seg).stats.total_words = st.stats.total_words + w := by
  rcases seg with ⟨t, sv, ev, c⟩
  unfold log_segment
  rw [if_neg h]
  rcases t with _ | t <;> rcases sv with _ | (q | s) <;> rcases ev with _ | (q' | s') <;>
    rcases c with _ | b <;>
    first
      | exact ⟨0, rfl⟩
      | exact ⟨_, rfl⟩
      | (cases b <;> first | exact ⟨0, rfl⟩ | exact ⟨_, rfl⟩)

theorem log_segment_duration_le {st : LoggerState} {seg : Segment} (now : Time)
    (h : segKey seg ∉ st.logged_segments) :
    st.stats.total_duration ≤ (log_segment st now seg).stats.total_duration := by
  rcases seg with ⟨t, sv, ev, c⟩
  unfold log_segment
  rw [if_neg h]
  rcases t with _ | t <;> rcases sv with _ | (q | s) <;> rcases ev with _ | (q' | s') <;>
    rcases c with _ | b <;>
    first
      | exact le_refl _
      | exact le_max_left _ _
      | (cases b <;> first | exact le_refl _ | exact le_max_left _ _)

theorem log_segment_rest {st : LoggerState} {seg : Segment} (now : Time)
    (h : segKey seg ∉ st.logged_segments) :
    (log_segment st now seg).stats.trigger_words_detected = st.stats.trigger_words_detected ∧
    (log_segment st now seg).stats.trigger_statements_saved = st.stats.trigger_statements_saved ∧
    (log_segment st now seg).stats.vad_triggers = st.stats.vad_triggers ∧
    (log_segment st now seg).stats.vad_silence_filters = st.stats.vad_silence_filters ∧
    (log_segment st now seg).stats.vad_total_events = st.stats.vad_total_events := by
  rcases seg with ⟨t, sv, ev, c⟩
  unfold log_segment
  rw [if_neg h]
  rcases t with _ | t <;> rcases sv with _ | (q | s) <;> rcases ev with _ | (q' | s') <;>
    rcases c with _ | b <;>
    first
      | exact ⟨rfl, rfl, rfl, rfl, rfl⟩
      | (cases b <;> exact ⟨rfl, rfl, rfl, rfl, rfl⟩)

theorem segKey_mem_log_segment (st : LoggerState) (now : Time) (seg : Segment) :
    segKey seg ∈ (log_segment st now seg).logged_segments := by
  by_cases h : segKey seg ∈ st.logged_segments
  · rw [log_segment_of_mem now h]; exact h
  · rw [log_segment_logged now h]; exact List.mem_cons_self _ _

theorem log_segment_dup {a b : Segment} (st : LoggerState) (now now' : Time)
    (hk : segKey b = segKey a) :
    log_segment (log_segment st now a) now' b = log_segment st now a :=
  log_segment_of_mem now' (hk ▸ segKey_mem_log_segment st now a)

/-- C5: recording a segment is idempotent on the dedup key: a call whose
key is already recorded returns the state unchanged, and recording the
identical segment twice stores exactly one entry and one statistics
increment. -/
theorem log_segment_idempotent_spec (st : LoggerState) (now now' : Time) (seg : Segment) :
    log_segment (log_segment st now seg) now' seg = log_segment st now seg ∧
    (segKey seg ∈ st.logged_segments → log_segment st now seg = st) ∧
    (segKey seg ∉ st.logged_segments →
      (log_segment st now seg).logged_segments.length = st.logged_segments.length + 1 ∧
      (log_segment st now seg).stats.total_segments = st.stats.total_segments + 1) := by
  refine ⟨log_segment_dup st now now' rfl, fun h => log_segment_of_mem now h, fun h => ⟨?_, ?_⟩⟩
  · rw [log_segment_logged now h, List.length_cons]
  · exact log_segment_total now h

/-- Witness for C5 at a concrete fresh logger and segment. -/
theorem log_segment_idempotent_spec_witness :
    segKey ⟨some "hi".toList, some (.num 0), some (.num 1), some true⟩ ∉
      (initLogger true true false 0).logged_segments ∧
    ((log_segment (initLogger true true false 0) 0
        ⟨some "hi".toList, some (.num 0), some (.num 1), some true⟩).logged_segments.length =
      (initLogger true true false 0).logged_segments.length + 1 ∧
    (log_segment (initLogger true true false 0) 0
        ⟨some "hi".toList, some (.num 0), some (.num 1), some true⟩).stats.total_segments =
      (initLogger true true false 0).stats.total_segments + 1) :=
  ⟨List.not_mem_nil _,
   (log_segment_idempotent_spec (initLogger true true false 0) 0 0
      ⟨some "hi".toList, some (.num 0), some (.num 1), some true⟩).2.2 (List.not_mem_nil _)⟩

/-- C10: missing `text`/`start`/`end` fields default to `""`/`0`/`0` in the
dedup key, so a segment with explicit zero timing and one with absent
timing fields (and the same trimmed text) deduplicate against each other,
whichever arrives second. -/
theorem log_segment_default_key_spec (st : LoggerState) (now now' : Time)
    (t t' : Str) (c c' : Option Bool) (h : pyStrip t = pyStrip t') :
    segKey ⟨some t, some (.num 0), some (.num 0), c⟩ = (pyStrip t, PyVal.num 0, PyVal.num 0) ∧
    segKey ⟨some t', none, none, c'⟩ = (pyStrip t', PyVal.num 0, PyVal.num 0) ∧
    segKey ⟨some t, some (.num 0), some (.num 0), c⟩ = segKey ⟨some t', none, none, c'⟩ ∧
    log_segment (log_segment st now ⟨some t, some (.num 0), some (.num 0), c⟩) now'
        ⟨some t', none, none, c'⟩ =
      log_segment st now ⟨some t, some (.num 0), some (.num 0), c⟩ ∧
    log_segment (log_segment st now ⟨some t', none, none, c'⟩) now'
        ⟨some t, some (.num 0), some (.num 0), c⟩ =
      log_segment st now ⟨some t', none, none, c'⟩ := by
  have hk : segKey (⟨some t, some (.num 0), some (.num 0), c⟩ : Segment) =
      segKey (⟨some t', none, none, c'⟩ : Segment) := by
    simp only [segKey, Option.getD, h]
  exact ⟨rfl, rfl, hk, log_segment_dup st now now' hk.symm, log_segment_dup st now now' hk⟩

/-- Witness for C10 at concrete texts. -/
theorem log_segment_default_key_spec_witness :
    pyStrip " hi ".toList = pyStrip "hi".toList ∧
    segKey ⟨some " hi ".toList, some (.num 0), some (.num 0), some true⟩ =
      segKey ⟨some "hi".toList, none, none, none⟩ :=
  ⟨by decide,
   (log_segment_default_key_spec (initLogger true true false 0) 0 0
      " hi ".toList "hi".toList (some true) none (by decide)).2.2.1⟩

/-- One call to a `TranscriptionLogger` method, for stating properties of
every reachable logger state. -/
inductive LogOp where
  | seg (now : Time) (s : Segment)
  | vad (event_type : Option Str)
  | trig (event_type : Str)

/-- Apply one logger call to the logger state. -/
def applyOp (st : LoggerState) : LogOp → LoggerState
  | .seg now s => log_segment st now s
  | .vad t => log_vad_event st t
  | .trig t => log_trigger_event st t

/-- Run a sequence of logger calls. -/
def runOps (st : LoggerState) (ops : List LogOp) : LoggerState :=
  ops.foldl applyOp st

/-- Pointwise order on the numeric statistics counters. -/
def StatsLE (a b : Stats) : Prop :=
  a.total_segments ≤ b.total_segments ∧
  a.completed_segments ≤ b.completed_segments ∧
  a.incomplete_segments ≤ b.incomplete_segments ∧
  a.total_duration ≤ b.total_duration ∧
  a.total_words ≤ b.total_words ∧
  a.trigger_words_detected ≤ b.trigger_words_detected ∧
  a.trigger_statements_saved ≤ b.trigger_statements_saved ∧
  a.vad_triggers ≤ b.vad_triggers ∧
  a.vad_silence_filters ≤ b.vad_silence_filters ∧
  a.vad_total_events ≤ b.vad_total_events

theorem StatsLE.refl (a : Stats) : StatsLE a a :=
  ⟨le_refl _, le_refl _, le_refl _, le_refl _, le_refl _, le_refl _, le_refl _,
   le_refl _, le_refl _, le_refl _⟩

theorem log_vad_event_stats (st : LoggerState) (t : Option Str) :
    (log_vad_event st t).stats.total_segments = st.stats.total_segments ∧
    (log_vad_event st t).stats.completed_segments = st.stats.completed_segments ∧
    (log_vad_event st t).stats.incomplete_segments = st.stats.incomplete_segments ∧
    (log_vad_event st t).stats.total_duration = st.stats.total_duration ∧
    (log_vad_event st t).stats.total_words = st.stats.total_words ∧
    (log_vad_event st t).stats.trigger_words_detected = st.stats.trigger_words_detected ∧
    (log_vad_event st t).stats.trigger_statements_saved = st.stats.trigger_statements_saved ∧
    (log_vad_event st t).stats.vad_triggers = st.stats.vad_triggers ∧
    (log_vad_event st t).stats.vad_silence_filters =
      st.stats.vad_silence_filters + (if t = some ("vad_filter".toList) then 1 else 0) ∧
    (log_vad_event st t).stats.vad_total_events = st.stats.vad_total_events + 1 ∧
    (log_vad_event st t).logged_segments = st.logged_segments := by
  by_cases h : t = some ("vad_filter".toList)
  · subst h
    simp [log_vad_event]
  · simp only [log_vad_event, if_neg h]
    simp

theorem log_trigger_event_stats (st : LoggerState) (t : Str) :
    (log_trigger_event st t).stats.total_segments = st.stats.total_segments ∧
    (log_trigger_event st t).stats.completed_segments = st.stats.completed_segments ∧
    (log_trigger_event st t).stats.incomplete_segments = st.stats.incomplete_segments ∧
    (log_trigger_event st t).stats.total_duration = st.stats.total_duration ∧
    (log_trigger_event st t).stats.total_words = st.stats.total_words ∧
    st.stats.trigger_words_detected ≤ (log_trigger_event st t).stats.trigger_words_detected ∧
    st.stats.trigger_statements_saved ≤ (log_trigger_event st t).stats.trigger_statements_saved ∧
    (log_trigger_event st t).stats.vad_triggers = st.stats.vad_triggers ∧
    (log_trigger_event st t).stats.vad_silence_filters = st.stats.vad_silence_filters ∧
    (log_trigger_event st t).stats.vad_total_events = st.stats.vad_total_events ∧
    (log_trigger_event st t).logged_segments = st.logged_segments := by
  by_cases h1 : t = "trigger_detected".toList
  · subst h1
    simp [log_trigger_event, Nat.le_succ]
  · by_cases h2 : t = "statement_saved".toList
    · subst h2
      simp only [log_trigger_event, if_neg h1]
      simp [Nat.le_succ]
    · simp only [log_trigger_event, if_neg h1, if_neg h2]
      simp

theorem applyOp_mono (st : LoggerState) (op : LogOp) :
    StatsLE st.stats (applyOp st op).stats := by
  cases op with
  | seg now s =>
    by_cases h : segKey s ∈ st.logged_segments
    · rw [applyOp, log_segment_of_mem now h]; exact StatsLE.refl _
    · obtain ⟨w, hw⟩ := log_segment_words now h
      obtain ⟨h1, h2, h3, h4, h5⟩ := log_segment_rest now h
      refine ⟨?_, ?_, ?_, ?_, ?_, ?_, ?_, ?_, ?_, ?_⟩
      · rw [applyOp, log_segment_total now h]; exact Nat.le_succ _
      · rw [applyOp, log_segment_completed now h]; exact Nat.le_add_right _ _
      · rw [applyOp, log_segment_incomplete now h]; exact Nat.le_add_right _ _
      · exact log_segment_duration_le now h
      · rw [applyOp, hw]; exact Nat.le_add_right _ _
      · rw [applyOp, h1]
      · rw [applyOp, h2]
      · rw [applyOp, h3]
      · rw [applyOp, h4]
      · rw [applyOp, h5]
  | vad t =>
    obtain ⟨h1, h2, h3, h4, h5, h6, h7, h8, h9, h10, _⟩ := log_vad_event_stats st t
    exact ⟨le_of_eq h1.symm, le_of_eq h2.symm, le_of_eq h3.symm, le_of_eq h4.symm,
      le_of_eq h5.symm, le_of_eq h6.symm, le_of_eq h7.symm, le_of_eq h8.symm,
      h9 ▸ Nat.le_add_right _ _, h10 ▸ Nat.le_succ _⟩
  | trig t =>
    obtain ⟨h1, h2, h3, h4, h5, h6, h7, h8, h9, h10, _⟩ := log_trigger_event_stats st t
    exact ⟨le_of_eq h1.symm, le_of_eq h2.symm, le_of_eq h3.symm, le_of_eq h4.symm,
      le_of_eq h5.symm, h6, h7, le_of_eq h8.symm, le_of_eq h9.symm, le_of_eq h10.symm⟩

theorem applyOp_inv (st : LoggerState) (op : LogOp)
    (h : st.stats.completed_segments + st.stats.incomplete_segments = st.stats.total_segments) :
    (applyOp st op).stats.completed_segments + (applyOp st op).stats.incomplete_segments =
      (applyOp st op).stats.total_segments := by
  cases op with
  | seg now s =>
    by_cases hm : segKey s ∈ st.logged_segments
    · rw [applyOp, log_segment_of_mem now hm]; exact h
    · rw [applyOp, log_segment_total now hm, log_segment_completed now hm,
        log_segment_incomplete now hm]
      by_cases hc : s.completed.getD false <;> simp [hc] <;> omega
  | vad t =>
    obtain ⟨h1, h2, h3, _⟩ := log_vad_event_stats st t
    rw [applyOp, h1, h2, h3]; exact h
  | trig t =>
    obtain ⟨h1, h2, h3, _⟩ := log_trigger_event_stats st t
    rw [applyOp, h1, h2, h3]; exact h

theorem runOps_inv (ops : List LogOp) : ∀ st : LoggerState,
    st.stats.completed_segments + st.stats.incomplete_segments = st.stats.total_segments →
    (runOps st ops).stats.completed_segments + (runOps st ops).stats.incomplete_segments =
      (runOps st ops).stats.total_segments := by
  induction ops with
  | nil => intro st h; exact h
  | cons op ops ih =>
    intro st h
    rw [runOps, List.foldl_cons]
    exact ih _ (applyOp_inv st op h)

/-- C6: over every sequence of logger calls from the initial state,
`completed_segments + incomplete_segments = total_segments`, and no
statistics counter ever decreases across any single call. -/
theorem stats_invariant_spec :
    (∀ (ej et vb : Bool) (t0 : Time) (ops : List LogOp),
      (runOps (initLogger ej et vb t0) ops).stats.completed_segments +
        (runOps (initLogger ej et vb t0) ops).stats.incomplete_segments =
        (runOps (initLogger ej et vb t0) ops).stats.total_segments) ∧
    (∀ (st : LoggerState) (op : LogOp), StatsLE st.stats (applyOp st op).stats) :=
  ⟨fun ej et vb t0 ops => runOps_inv ops (initLogger ej et vb t0) rfl,
   applyOp_mono⟩

/-- C7: every finalization, saved or not and even on a failed write,
resets the state machine to idle — `waiting` false, trigger word, indices,
times and collection deadline cleared, watermark advanced to the current
segment count — and a failed write additionally leaves `last_saved_text`
and the cooldown window unchanged. -/
theorem finalize_resets_spec :
    (∀ (writeOk : Bool) (segments : List Segment) (now : Time) (st : TriggerState),
      (finalizeCollection writeOk segments now st).1.waiting = false ∧
      (finalizeCollection writeOk segments now st).1.trigger_word = none ∧
      (finalizeCollection writeOk segments now st).1.trigger_segment_index = -1 ∧
      (finalizeCollection writeOk segments now st).1.trigger_position = -1 ∧
      (finalizeCollection writeOk segments now st).1.start_time = none ∧
      (finalizeCollection writeOk segments now st).1.last_change_time = none ∧
      (finalizeCollection writeOk segments now st).1.max_collection_time = none ∧
      (finalizeCollection writeOk segments now st).1.last_processed_segment_count =
        segments.length) ∧
    (∀ (segments : List Segment) (now : Time) (st : TriggerState),
      (finalizeCollection false segments now st).1.last_saved_text = st.last_saved_text ∧
      (finalizeCollection false segments now st).1.cooldown_until = st.cooldown_until) := by
  constructor
  · intro writeOk segments now st
    exact ⟨rfl, rfl, rfl, rfl, rfl, rfl, rfl, rfl⟩
  · intro segments now st
    have h : (saveStatement false segments now st).1 = st := by
      unfold saveStatement
      dsimp only
      split_ifs <;> first | rfl | contradiction
    refine ⟨?_, ?_⟩
    · show (saveStatement false segments now st).1.last_saved_text = st.last_saved_text
      rw [h]
    · show (saveStatement false segments now st).1.cooldown_until = st.cooldown_until
      rw [h]

/-- The candidate statement at finalization: the extraction result,
trimmed (`post_trigger_text.strip()` in the save condition, lines 538-540). -/
def finalCandidate (segments : List Segment) (st : TriggerState) : Str :=
  pyStrip (extractStatement segments (st.trigger_word.getD []) st.trigger_segment_index)

/-- The save condition of lines 538-540: non-empty, not bare punctuation,
and different from the previously saved text. -/
def saveCond (segments : List Segment) (st : TriggerState) : Prop :=
  finalCandidate segments st ≠ [] ∧
  ¬ (finalCandidate segments st = ['.'] ∨ finalCandidate segments st = [','] ∨
     finalCandidate segments st = []) ∧
  finalCandidate segments st ≠ st.last_saved_text

instance (segments : List Segment) (st : TriggerState) : Decidable (saveCond segments st) := by
  unfold saveCond
  exact inferInstance

/-- C4: with a valid trigger segment index and a succeeding write, the
statement is saved — written to the sink, recorded as `last_saved_text`
and a 2-second cooldown opened — exactly when the trimmed candidate is
non-empty, not a bare `"."` or `","`, and differs from the previously
saved statement; otherwise nothing is written and `last_saved_text` and
the cooldown are unchanged. -/
theorem finalize_save_condition_spec (segments : List Segment) (now : Time)
    (st : TriggerState) (hidx : st.trigger_segment_index ≥ 0) :
    (finalizeCollection true segments now st).2.statementSaved =
      (if saveCond segments st then some (finalCandidate segments st) else none) ∧
    (finalizeCollection true segments now st).2.wroteFile =
      (if saveCond segments st then true else false) ∧
    (finalizeCollection true segments now st).1.last_saved_text =
      (if saveCond segments st then finalCandidate segments st else st.last_saved_text) ∧
    (finalizeCollection true segments now st).1.cooldown_until =
      (if saveCond segments st then some (now + 2) else st.cooldown_until) := by
  have hsc : saveCond segments st ↔
      (pyStrip (extractStatement segments (st.trigger_word.getD []) st.trigger_segment_index) ≠ [] ∧
       ¬ (pyStrip (extractStatement segments (st.trigger_word.getD []) st.trigger_segment_index) = ['.'] ∨
          pyStrip (extractStatement segments (st.trigger_word.getD []) st.trigger_segment_index) = [','] ∨
          pyStrip (extractStatement segments (st.trigger_word.getD []) st.trigger_segment_index) = []) ∧
       pyStrip (extractStatement segments (st.trigger_word.getD []) st.trigger_segment_index) ≠
         st.last_saved_text) := Iff.rfl
  by_cases hc : saveCond segments st
  · rw [if_pos hc, if_pos hc, if_pos hc, if_pos hc]
    unfold finalizeCollection saveStatement
    dsimp only
    rw [if_pos hidx, if_pos (hsc.mp hc)]
    exact ⟨rfl, rfl, rfl, rfl⟩
  · rw [if_neg hc, if_neg hc, if_neg hc, if_neg hc]
    unfold finalizeCollection saveStatement
    dsimp only
    rw [if_pos hidx, if_neg (fun hx => hc (hsc.mpr hx))]
    exact ⟨rfl, rfl, rfl, rfl⟩

/-- Sample segment list used by witnesses: one completed segment reading
`"hello there"`. -/
def segsA : List Segment := [⟨some "hello there".toList, none, none, some true⟩]

/-- Sample waiting-state trigger state used by witnesses: trigger word
`"hello"` captured at segment 0 at time 0, default timing configuration. -/
def stWaiting : TriggerState :=
  { waiting := true, trigger_word := some ("hello".toList), trigger_position := -1
    trigger_segment_index := 0, start_time := some 0, last_change_time := some 0
    stability_delay := 3/2, last_saved_text := [], cooldown_until := none
    last_processed_segment_count := 0, waiting_segment_count := 1
    collection_timeout := 5, max_collection_time := none }

/-- Witness for C4 at a concrete waiting state. -/
theorem finalize_save_condition_spec_witness :
    (finalizeCollection true segsA 0 stWaiting).2.statementSaved =
      (if saveCond segsA stWaiting then some (finalCandidate segsA stWaiting) else none) :=
  (finalize_save_condition_spec segsA 0 stWaiting (by decide)).1

theorem rfindFrom_some (needle hay : Str) : ∀ (k p : Nat),
    rfindFrom needle hay k = some p →
    p ≤ k ∧ needle.isPrefixOf (hay.drop p) = true ∧
    ∀ q, p < q → q ≤ k → needle.isPrefixOf (hay.drop q) = false := by
  intro k
  induction k with
  | zero =>
    intro p h
    by_cases hp : needle.isPrefixOf hay = true
    · simp only [rfindFrom, hp, if_true, Option.some.injEq] at h
      subst h
      exact ⟨le_refl _, hp, fun q hq1 hq2 => absurd (Nat.lt_of_lt_of_le hq1 hq2) (lt_irrefl _)⟩
    · simp only [rfindFrom, hp, if_false, Bool.false_eq_true, reduceIte] at h
      exact Option.noConfusion h
  | succ k ih =>
    intro p h
    by_cases hp : needle.isPrefixOf (hay.drop (k + 1)) = true
    · simp only [rfindFrom, hp, if_true, Option.some.injEq] at h
      subst h
      exact ⟨le_refl _, hp, fun q hq1 hq2 => absurd (Nat.lt_of_lt_of_le hq1 hq2) (lt_irrefl _)⟩
    · simp only [rfindFrom, hp, if_false, Bool.false_eq_true, reduceIte] at h
      obtain ⟨h1, h2, h3⟩ := ih p h
      refine ⟨Nat.le_succ_of_le h1, h2, fun q hq1 hq2 => ?_⟩
      rcases Nat.lt_or_eq_of_le hq2 with hq | hq
      · exact h3 q hq1 (Nat.lt_succ_iff.mp hq)
      · subst hq
        exact eq_false_of_ne_true hp

theorem rfindFrom_none (needle hay : Str) : ∀ (k : Nat),
    rfindFrom needle hay k = none →
    ∀ q, q ≤ k → needle.isPrefixOf (hay.drop q) = false := by
  intro k
  induction k with
  | zero =>
    intro h q hq
    interval_cases q
    by_cases hp : needle.isPrefixOf hay = true
    · simp only [rfindFrom, hp, if_true] at h
      exact Option.noConfusion h
    · exact eq_false_of_ne_true hp
  | succ k ih =>
    intro h q hq
    by_cases hp : needle.isPrefixOf (hay.drop (k + 1)) = true
    · simp only [rfindFrom, hp, if_true] at h
      exact Option.noConfusion h
    · simp only [rfindFrom, hp, if_false, Bool.false_eq_true, reduceIte] at h
      rcases Nat.lt_or_eq_of_le hq with hq' | hq'
      · exact ih h q (Nat.lt_succ_iff.mp hq')
      · subst hq'
        exact eq_false_of_ne_true hp

/-- C3: the finalization candidate joins the trimmed text of all segments
with single spaces, locates the last case-insensitive occurrence of the
trigger word (`pyRfind` returns a true occurrence and nothing later is
one), takes what follows it, trims it and strips leading `' ,.!?'`; with
no occurrence it falls back to the segments strictly after the captured
index; and on a concatenation `"hello hello there"` with trigger
`"hello"` the extracted text is `"there"`. -/
theorem extract_statement_spec :
    (∀ (segments : List Segment) (tw : Str) (tidx : Int),
      extractStatement segments tw tidx =
        match pyRfind (pyLower tw) (pyLower (List.intercalate [' ']
            (segments.map (fun s => pyStrip (s.text.getD []))))) with
        | some pos => pyLstrip (' ' :: ",.!?".toList)
            (pyStrip ((List.intercalate [' ']
              (segments.map (fun s => pyStrip (s.text.getD [])))).drop
                (pos + (pyLower tw).length)))
        | none => List.intercalate [' ']
            ((segments.drop (tidx.toNat + 1)).map (fun s => pyStrip (s.text.getD [])))) ∧
    (∀ (needle hay : Str) (p : Nat), pyRfind needle hay = some p →
      needle.isPrefixOf (hay.drop p) = true ∧
      ∀ q, p < q → q ≤ hay.length → needle.isPrefixOf (hay.drop q) = false) ∧
    (∀ (needle hay : Str), pyRfind needle hay = none →
      ∀ q, q ≤ hay.length → needle.isPrefixOf (hay.drop q) = false) ∧
    extractStatement [⟨some "hello hello".toList, none, none, some true⟩,
      ⟨some "there".toList, none, none, some true⟩] ("hello".toList) 0 = "there".toList := by
  refine ⟨fun segments tw tidx => rfl, fun needle hay p h => ?_, fun needle hay h => ?_, by decide⟩
  · obtain ⟨_, h2, h3⟩ := rfindFrom_some needle hay hay.length p h
    exact ⟨h2, h3⟩
  · exact rfindFrom_none needle hay hay.length h

/-- Witness for C3: the last occurrence of `"hello"` in
`"hello hello there"` is at position 6 and position 7 is past it. -/
theorem extract_statement_spec_witness :
    pyRfind ("hello".toList) ("hello hello there".toList) = some 6 ∧
    6 < 7 ∧ 7 ≤ ("hello hello there".toList).length ∧
    ("hello".toList).isPrefixOf (("hello hello there".toList).drop 7) = false :=
  ⟨by decide, by decide, by decide,
   (extract_statement_spec.2.1 ("hello".toList) ("hello hello there".toList) 6
      (by decide)).2 7 (by decide) (by decide)⟩

theorem saveStatement_finalized (writeOk : Bool) (segments : List Segment) (now : Time)
    (st : TriggerState) : (saveStatement writeOk segments now st).2.finalized = true := by
  unfold saveStatement
  dsimp only
  split_ifs <;> rfl

theorem finalizeCollection_finalized (writeOk : Bool) (segments : List Segment) (now : Time)
    (st : TriggerState) : (finalizeCollection writeOk segments now st).2.finalized = true :=
  saveStatement_finalized writeOk segments now st

theorem waitingStep_spec (writeOk : Bool) (segments : List Segment) (now : Time)
    (st : TriggerState) :
    ((waitingStep writeOk segments now st).2.finalized = true ↔
      (st.max_collection_time.getD (now + st.collection_timeout) ≤ now ∨
       (st.stability_delay ≤
          (match (if segments.length > st.waiting_segment_count then some now
                  else st.last_change_time) with
           | some t => now - t
           | none => 0) ∧
        (2 : ℚ) ≤ (match st.start_time with | some t => now - t | none => 0)))) ∧
    ((waitingStep writeOk segments now st).2.finalized = false →
      (waitingStep writeOk segments now st).1.max_collection_time =
        some (st.max_collection_time.getD (now + st.collection_timeout)) ∧
      (waitingStep writeOk segments now st).1.last_change_time =
        (if segments.length > st.waiting_segment_count then some now
         else st.last_change_time) ∧
      (waitingStep writeOk segments now st).1.waiting = st.waiting) ∧
    ((waitingStep writeOk segments now st).2.finalized = true →
      (waitingStep writeOk segments now st).1.waiting = false) := by
  unfold waitingStep
  dsimp only
  by_cases hch : segments.length > st.waiting_segment_count
  · simp only [hch, decide_True, if_true]
    split_ifs with hB
    · have hB' : st.max_collection_time.getD (now + st.collection_timeout) ≤ now ∨
          (st.stability_delay ≤ now - now ∧
           (2 : ℚ) ≤ (match st.start_time with | some t => now - t | none => 0)) := by
        simpa [ge_iff_le, Bool.or_eq_true, Bool.and_eq_true, decide_eq_true_eq] using hB
      refine ⟨iff_of_true (finalizeCollection_finalized _ _ _ _) hB', fun hx => ?_, fun _ => rfl⟩
      rw [finalizeCollection_finalized] at hx
      exact Bool.noConfusion hx
    · have hB' : ¬ (st.max_collection_time.getD (now + st.collection_timeout) ≤ now ∨
          (st.stability_delay ≤ now - now ∧
           (2 : ℚ) ≤ (match st.start_time with | some t => now - t | none => 0))) := by
        simpa [ge_iff_le, Bool.or_eq_true, Bool.and_eq_true, decide_eq_true_eq] using hB
      exact ⟨iff_of_false (by simp) hB', fun _ => ⟨rfl, rfl, rfl⟩, fun hx => hx.elim⟩
  · simp only [hch, decide_False, Bool.false_eq_true, if_false]
    split_ifs with hB
    · have hB' : st.max_collection_time.getD (now + st.collection_timeout) ≤ now ∨
          (st.stability_delay ≤
            (match st.last_change_time with | some t => now - t | none => 0) ∧
           (2 : ℚ) ≤ (match st.start_time with | some t => now - t | none => 0)) := by
        simpa [ge_iff_le, Bool.or_eq_true, Bool.and_eq_true, decide_eq_true_eq] using hB
      refine ⟨iff_of_true (finalizeCollection_finalized _ _ _ _) hB', fun hx => ?_, fun _ => rfl⟩
      rw [finalizeCollection_finalized] at hx
      exact Bool.noConfusion hx
    · have hB' : ¬ (st.max_collection_time.getD (now + st.collection_timeout) ≤ now ∨
          (st.stability_delay ≤
            (match st.last_change_time with | some t => now - t | none => 0) ∧
           (2 : ℚ) ≤ (match st.start_time with | some t => now - t | none => 0))) := by
        simpa [ge_iff_le, Bool.or_eq_true, Bool.and_eq_true, decide_eq_true_eq] using hB
      exact ⟨iff_of_false (by simp) hB', fun _ => ⟨rfl, rfl, rfl⟩, fun hx => hx.elim⟩

/-- C1: in the waiting state (guards passed, not in cooldown, with the
fixed 5-second collection timeout) a callback finalizes exactly when the
collection deadline — the recorded one, or now + 5 on the first waiting
callback — has been reached, or the time since the last change is at
least the stability delay and at least 2 seconds have passed since the
trigger; the last-change time is refreshed exactly when the segment count
exceeds the recorded one, and a non-finalizing callback records the
deadline and refreshed last-change time. -/
theorem waiting_finalize_timing_spec (trigger_words : List Str) (writeOk : Bool)
    (segments : List Segment) (now : Time) (st : TriggerState)
    (htw : trigger_words ≠ []) (hseg : segments ≠ [])
    (hcd : cooldownActive st now = false) (hw : st.waiting = true)
    (hct : st.collection_timeout = 5) :
    ((trigger_word_callback trigger_words writeOk segments now st).2.finalized = true ↔
      (st.max_collection_time.getD (now + 5) ≤ now ∨
       (st.stability_delay ≤
          (match (if segments.length > st.waiting_segment_count then some now
                  else st.last_change_time) with
           | some t => now - t
           | none => 0) ∧
        (2 : ℚ) ≤ (match st.start_time with | some t => now - t | none => 0)))) ∧
    ((trigger_word_callback trigger_words writeOk segments now st).2.finalized = false →
      (trigger_word_callback trigger_words writeOk segments now st).1.max_collection_time =
        some (st.max_collection_time.getD (now + 5)) ∧
      (trigger_word_callback trigger_words writeOk segments now st).1.last_change_time =
        (if segments.length > st.waiting_segment_count then some now
         else st.last_change_time) ∧
      (trigger_word_callback trigger_words writeOk segments now st).1.waiting = true) ∧
    ((trigger_word_callback trigger_words writeOk segments now st).2.finalized = true →
      (trigger_word_callback trigger_words writeOk segments now st).1.waiting = false) := by
  have hg : ¬ (trigger_words = [] ∨ segments = []) := by simp [htw, hseg]
  have e : trigger_word_callback trigger_words writeOk segments now st =
      waitingStep writeOk segments now st := by
    unfold trigger_word_callback
    simp only [if_neg hg, hcd, hw, Bool.false_eq_true, if_false, if_true, reduceIte]
  obtain ⟨h1, h2, h3⟩ := waitingStep_spec writeOk segments now st
  rw [hct] at h1 h2
  rw [e]
  exact ⟨h1, fun hx => ⟨(h2 hx).1, (h2 hx).2.1, (h2 hx).2.2.trans hw⟩, h3⟩

/-- Witness for C1 at a concrete waiting state three seconds after the
trigger. -/
theorem waiting_finalize_timing_spec_witness :
    (["hello".toList] : List Str) ≠ [] ∧ segsA ≠ [] ∧
    cooldownActive stWaiting 3 = false ∧ stWaiting.waiting = true ∧
    stWaiting.collection_timeout = 5 ∧
    ((trigger_word_callback ["hello".toList] true segsA 3 stWaiting).2.finalized = true ↔
      (stWaiting.max_collection_time.getD (3 + 5) ≤ 3 ∨
       (stWaiting.stability_delay ≤
          (match (if segsA.length > stWaiting.waiting_segment_count then some (3 : Time)
                  else stWaiting.last_change_time) with
           | some t => 3 - t
           | none => 0) ∧
        (2 : ℚ) ≤ (match stWaiting.start_time with
           | some t => (3 : Time) - t
           | none => 0)))) :=
  ⟨by decide, by decide, rfl, rfl, rfl,
   (waiting_finalize_timing_spec ["hello".toList] true segsA 3 stWaiting
      (by decide) (by decide) rfl rfl rfl).1⟩

theorem find?_first {α : Type} (p : α → Bool) : ∀ (l : List α) (w : α),
    l.find? p = some w →
    ∃ k : Nat, l[k]? = some w ∧ p w = true ∧
      ∀ j : Nat, j < k → ∀ w', l[j]? = some w' → p w' = false := by
  intro l
  induction l with
  | nil => intro w h; exact absurd h (by simp)
  | cons a l ih =>
    intro w h
    by_cases hp : p a = true
    · rw [List.find?_cons_of_pos _ hp] at h
      obtain rfl : a = w := by injection h
      exact ⟨0, by simp, hp, fun j hj => absurd hj (Nat.not_lt_zero j)⟩
    · rw [List.find?_cons_of_neg _ (by simpa using hp)] at h
      obtain ⟨k, h1, h2, h3⟩ := ih w h
      refine ⟨k + 1, by simpa using h1, h2, ?_⟩
      intro j hj w' hw'
      cases j with
      | zero =>
        obtain rfl : a = w' := by simpa using hw'
        exact eq_false_of_ne_true hp
      | succ j =>
        exact h3 j (Nat.lt_of_succ_lt_succ hj) w' (by simpa using hw')

theorem segMatch_first (trigger_words : List Str) (seg : Segment) (w : Str)
    (h : segMatch trigger_words seg = some w) :
    pyStrip (seg.text.getD []) ≠ [] ∧
    isSubstr (pyLower w) (pyLower (pyStrip (seg.text.getD []))) = true ∧
    ∃ k : Nat, trigger_words[k]? = some w ∧
      ∀ j : Nat, j < k → ∀ w', trigger_words[j]? = some w' →
        isSubstr (pyLower w') (pyLower (pyStrip (seg.text.getD []))) = false := by
  unfold segMatch at h
  dsimp only at h
  by_cases ht : pyStrip (seg.text.getD []) = []
  · rw [if_pos ht] at h
    exact absurd h (by simp)
  · rw [if_neg ht] at h
    obtain ⟨k, h1, h2, h3⟩ := find?_first _ _ _ h
    exact ⟨ht, h2, k, h1, fun j hj w' hw' => h3 j hj w' hw'⟩

theorem scanSegments_first (trigger_words : List Str) : ∀ (l : List Segment) (base : Nat)
    (w : Str) (i : Nat), scanSegments trigger_words base l = some (w, i) →
    base ≤ i ∧ i - base < l.length ∧
    (∃ seg, l[i - base]? = some seg ∧ segMatch trigger_words seg = some w) ∧
    ∀ j, j < i - base → ∀ seg, l[j]? = some seg → segMatch trigger_words seg = none := by
  intro l
  induction l with
  | nil => intro base w i h; exact absurd h (by simp [scanSegments])
  | cons seg rest ih =>
    intro base w i h
    rw [scanSegments] at h
    cases hm : segMatch trigger_words seg with
    | some tw =>
      rw [hm] at h
      simp only [Option.some.injEq, Prod.mk.injEq] at h
      obtain ⟨rfl, rfl⟩ := h
      refine ⟨le_refl _, by simp, ⟨seg, by simp, hm⟩, ?_⟩
      intro j hj s hs
      exact absurd hj (by simp)
    | none =>
      rw [hm] at h
      obtain ⟨h1, h2, h3, h4⟩ := ih (base + 1) w i h
      have hbi : base < i := h1
      refine ⟨Nat.le_of_lt hbi, ?_, ?_, ?_⟩
      · have : i - base = (i - (base + 1)) + 1 := by omega
        rw [this]
        simpa using Nat.succ_lt_succ h2
      · have : i - base = (i - (base + 1)) + 1 := by omega
        rw [this]
        simpa using h3
      · intro j hj s hs
        cases j with
        | zero =>
          obtain rfl : seg = s := by simpa using hs
          exact hm
        | succ j =>
          have : i - base = (i - (base + 1)) + 1 := by omega
          rw [this] at hj
          exact h4 j (Nat.lt_of_succ_lt_succ hj) s (by simpa using hs)

/-- C2: in the idle state (guards passed, not in cooldown) the callback
equals the scan over only the segments at or beyond the processed-count
watermark: replacing the segments below the watermark never changes the
result; the scan returns the first matching segment in list order — all
earlier new segments have no match — with the first trigger word in
configured order matching that segment; and on a match the detector
captures the word, its absolute index, the current time as start and
last-change time, the segment count, and enters the waiting state. -/
theorem idle_scan_spec (trigger_words : List Str) (writeOk : Bool)
    (segments : List Segment) (now : Time) (st : TriggerState)
    (htw : trigger_words ≠ []) (hseg : segments ≠ [])
    (hcd : cooldownActive st now = false) (hw : st.waiting = false) :
    (trigger_word_callback trigger_words writeOk segments now st =
      match scanSegments trigger_words st.last_processed_segment_count
          (segments.drop st.last_processed_segment_count) with
      | none => (st, {})
      | some (tw, idx) =>
        ({ st with waiting := true, trigger_word := some tw
                   trigger_segment_index := (idx : Int), start_time := some now
                   last_change_time := some now
                   waiting_segment_count := segments.length },
         { triggerDetected := some tw })) ∧
    (∀ pre pre' suf : List Segment, pre.length = st.last_processed_segment_count →
      pre'.length = st.last_processed_segment_count →
      trigger_word_callback trigger_words writeOk (pre ++ suf) now st =
        trigger_word_callback trigger_words writeOk (pre' ++ suf) now st) ∧
    (∀ (l : List Segment) (base : Nat) (w : Str) (i : Nat),
      scanSegments trigger_words base l = some (w, i) →
      base ≤ i ∧ i - base < l.length ∧
      (∃ seg, l[i - base]? = some seg ∧ segMatch trigger_words seg = some w) ∧
      ∀ j : Nat, j < i - base → ∀ seg, l[j]? = some seg →
        segMatch trigger_words seg = none) ∧
    (∀ (seg : Segment) (w : Str), segMatch trigger_words seg = some w →
      pyStrip (seg.text.getD []) ≠ [] ∧
      isSubstr (pyLower w) (pyLower (pyStrip (seg.text.getD []))) = true ∧
      ∃ k : Nat, trigger_words[k]? = some w ∧
        ∀ j : Nat, j < k → ∀ w', trigger_words[j]? = some w' →
          isSubstr (pyLower w') (pyLower (pyStrip (seg.text.getD []))) = false) := by
  have hg : ¬ (trigger_words = [] ∨ segments = []) := by simp [htw, hseg]
  refine ⟨?_, ?_, scanSegments_first trigger_words, segMatch_first trigger_words⟩
  · unfold trigger_word_callback
    simp only [if_neg hg, hcd, hw, Bool.false_eq_true, if_false, reduceIte]
    unfold idleStep
    rfl
  · intro pre pre' suf hpre hpre'
    by_cases hnil : pre ++ suf = []
    · obtain ⟨hp0, hs0⟩ := List.append_eq_nil.mp hnil
      have hk : st.last_processed_segment_count = 0 := by
        rw [← hpre, hp0]
        rfl
      have hp'0 : pre' = [] := List.length_eq_zero.mp (by rw [hpre', hk])
      rw [hp0, hs0, hp'0]
    · have hnil' : pre' ++ suf ≠ [] := by
        intro hx
        obtain ⟨hp'0, hs0⟩ := List.append_eq_nil.mp hx
        have hk : st.last_processed_segment_count = 0 := by
          rw [← hpre', hp'0]
          rfl
        have hp0 : pre = [] := List.length_eq_zero.mp (by rw [hpre, hk])
        exact hnil (by rw [hp0, hs0]; rfl)
      have hg1 : ¬ (trigger_words = [] ∨ pre ++ suf = []) := by simp [htw, hnil]
      have hg2 : ¬ (trigger_words = [] ∨ pre' ++ suf = []) := by simp [htw, hnil']
      unfold trigger_word_callback
      simp only [if_neg hg1, if_neg hg2, hcd, hw, Bool.false_eq_true, if_false, reduceIte]
      unfold idleStep
      have d1 : (pre ++ suf).drop st.last_processed_segment_count = suf := by
        rw [← hpre]
        exact List.drop_left pre suf
      have d2 : (pre' ++ suf).drop st.last_processed_segment_count = suf := by
        rw [← hpre']
        exact List.drop_left pre' suf
      have l1 : (pre ++ suf).length = st.last_processed_segment_count + suf.length := by
        rw [List.length_append, hpre]
      have l2 : (pre' ++ suf).length = st.last_processed_segment_count + suf.length := by
        rw [List.length_append, hpre']
      rw [d1, d2, l1, l2]

/-- Sample idle trigger state with a processed-count watermark of one. -/
def stIdle1 : TriggerState :=
  { initTriggerState (3/2) with last_processed_segment_count := 1 }

/-- Witness for C2: with the watermark at one, the segment below the
watermark may be replaced — even by one containing the trigger word —
without changing the callback result. -/
theorem idle_scan_spec_witness :
    trigger_word_callback ["hello".toList] true
        ([⟨some "ignored hello".toList, none, none, none⟩] ++ segsA) 0 stIdle1 =
      trigger_word_callback ["hello".toList] true
        ([⟨some "other".toList, none, none, none⟩] ++ segsA) 0 stIdle1 :=
  (idle_scan_spec ["hello".toList] true segsA 0 stIdle1 (by decide) (by decide)
      rfl rfl).2.1
    [⟨some "ignored hello".toList, none, none, none⟩]
    [⟨some "other".toList, none, none, none⟩] segsA rfl rfl

/-- C8: an exception raised anywhere inside the dispatch is caught at the
callback boundary and never propagates; the error is appended to the text
log exactly when a logger exists with text logging enabled, and it is
printed to the interactive user exactly when the lowercased exception
message contains `"critical"`. -/
theorem callback_error_isolation_spec (trigger_words : List Str) (writeOk : Bool)
    (now : Time) (inp : CallbackIn) (st : SysState) (e : Str) (partialSt : SysState)
    (fault : Option (Str × SysState)) :
    (combined_callback trigger_words writeOk now inp st fault).2.propagated = none ∧
    (combined_callback trigger_words writeOk now inp st
        (some (e, partialSt))).2.errorLoggedToText =
      (match st.logger with | some lg => lg.enable_text | none => false) ∧
    (combined_callback trigger_words writeOk now inp st
        (some (e, partialSt))).2.criticalPrinted =
      isSubstr ("critical".toList) (pyLower e) := by
  refine ⟨?_, rfl, rfl⟩
  rcases fault with _ | ⟨a, b⟩ <;> rfl

/-- Counterexample to C9 as stated: with transcription logging disabled
(`transcription_logger = None`) the VAD branch of `combined_callback` is
skipped, so a delivery that carries both a VAD sub-event and segments
still reaches the trigger detector and modifies its state. -/
theorem vad_routing_counterexample :
    (dispatch ["hello".toList] true 0
        ⟨segsA, some ⟨some ("vad_filter".toList)⟩⟩
        ⟨none, initTriggerState (3/2)⟩).trigger ≠
      initTriggerState (3/2) := by
  decide

/-- C9 (amended): when the transcription logger is enabled, a delivery
carrying a VAD sub-event is routed only to the VAD event logger and the
callback returns: the trigger state is untouched, no segment is recorded,
and only the VAD counters (and the JSON entry count) change. -/
theorem vad_routing_spec (trigger_words : List Str) (writeOk : Bool) (now : Time)
    (segments : List Segment) (v : VadEvent) (lg : LoggerState) (trig : TriggerState) :
    dispatch trigger_words writeOk now ⟨segments, some v⟩ ⟨some lg, trig⟩ =
      ⟨some (log_vad_event lg v.type), trig⟩ ∧
    (log_vad_event lg v.type).logged_segments = lg.logged_segments ∧
    (log_vad_event lg v.type).stats.total_segments = lg.stats.total_segments ∧
    (log_vad_event lg v.type).stats.completed_segments = lg.stats.completed_segments ∧
    (log_vad_event lg v.type).stats.incomplete_segments = lg.stats.incomplete_segments ∧
    (log_vad_event lg v.type).stats.total_duration = lg.stats.total_duration ∧
    (log_vad_event lg v.type).stats.total_words = lg.stats.total_words ∧
    (log_vad_event lg v.type).stats.trigger_words_detected =
      lg.stats.trigger_words_detected ∧
    (log_vad_event lg v.type).stats.trigger_statements_saved =
      lg.stats.trigger_statements_saved ∧
    (log_vad_event lg v.type).stats.vad_triggers = lg.stats.vad_triggers ∧
    (log_vad_event lg v.type).stats.vad_total_events = lg.stats.vad_total_events + 1 := by
  obtain ⟨h1, h2, h3, h4, h5, h6, h7, h8, _, h10, h11⟩ := log_vad_event_stats lg v.type
  exact ⟨rfl, h11, h1, h2, h3, h4, h5, h6, h7, h8, h10⟩
